import Mathlib

/-!
Verification development for the lampa kodi-bridge service and the episode
filename parser.  The definitions below are shallow embeddings of the
JavaScript sources `public/service/kodi-bridge.js` (WebSocket variant and
HTTP variant) and `src/interaction/episodes_parser.js`; theorems settle the
specification claims against them.
-/

namespace LampaKodi

/-! ## Time conversion (`toSecondsFromKodiTime`, kodi-bridge.js lines 16-23)

A Kodi time value is an object with optional `hours`/`minutes`/`seconds`/
`milliseconds` fields; `Number(t.hours || 0)` defaults an absent field to 0.
An absent (`undefined`/`null`) time value maps to 0. -/

structure KodiTime where
  hours : Option Rat
  minutes : Option Rat
  seconds : Option Rat
  milliseconds : Option Rat
  deriving DecidableEq

def toSecondsFromKodiTime : Option KodiTime → Rat
  | none => 0
  | some t =>
      let h := t.hours.getD 0
      let m := t.minutes.getD 0
      let s := t.seconds.getD 0
      let ms := t.milliseconds.getD 0
      h * 3600 + m * 60 + s + ms / 1000

/-- Result payload of a `Player.GetProperties` call:
`time`, `totaltime` and `speed` fields (`Number(props.speed || 0)`). -/
structure KodiProps where
  time : Option KodiTime
  totaltime : Option KodiTime
  speed : Option Rat
  deriving DecidableEq

/-! ## Session state of the WebSocket `playAsync` handler

Mutable variables captured by the `playAsync` closure (lines 240-247):
`endedOrStopped`, `pollTimer`, `playerId`, the `lastKnown*` triple, plus
whether the `KodiWsClient` connection is open (`kodi.close()` tears it down). -/

structure SessState where
  endedOrStopped : Bool
  pollTimer : Bool
  wsOpen : Bool
  playerId : Option Nat
  lastKnownPos : Rat
  lastKnownDur : Rat
  lastKnownSpeed : Rat

/-- Events streamed back to the subscribed caller via `respond` (tagged by
their `type` field). -/
inductive SessionEvent where
  | launched (appId : String)
  | avstart
  | paused
  | resumed
  | seekEv (position duration speed : Rat)
  | playing (position : Rat)
  | progress (position duration speed : Rat)
  | stopped (position duration : Rat) (endFlag : Bool)
  | errorEv (code : String) (position duration speed : Rat)
  deriving DecidableEq

/-- `cleanup()` (lines 255-258): clears the polling interval. -/
def cleanup (st : SessState) : SessState :=
  { st with pollTimer := false }

/-- `fail(message, code)` (lines 266-281): guarded by `endedOrStopped`;
sets the flag, clears the poll timer, and responds with one `error` event
carrying the last known position/duration/speed. -/
def failSess (st : SessState) (code : String) : SessState × List SessionEvent :=
  if st.endedOrStopped then (st, [])
  else
    let st1 := cleanup { st with endedOrStopped := true }
    (st1, [SessionEvent.errorEv code st1.lastKnownPos st1.lastKnownDur st1.lastKnownSpeed])

/-- `getFinalPropsSafe()` (lines 313-335): if no player id is known, return
the last known values without issuing a request (0 reads); otherwise issue
one `Player.GetProperties` request (1 read) and on success update and return
the fresh values, on failure fall back to the last known values.
The third component counts the `Player.GetProperties` requests issued. -/
def getFinalPropsSafe (st : SessState) (fetch : Option KodiProps) :
    SessState × (Rat × Rat × Rat) × Nat :=
  match st.playerId with
  | none => (st, (st.lastKnownPos, st.lastKnownDur, st.lastKnownSpeed), 0)
  | some _ =>
      match fetch with
      | some props =>
          let pos := toSecondsFromKodiTime props.time
          let dur := toSecondsFromKodiTime props.totaltime
          let speed := props.speed.getD 0
          ({ st with lastKnownPos := pos, lastKnownDur := dur, lastKnownSpeed := speed },
            (pos, dur, speed), 1)
      | none => (st, (st.lastKnownPos, st.lastKnownDur, st.lastKnownSpeed), 1)

/-- An inbound Kodi notification as seen by `kodi.onNotification`
(lines 347-381).  `onStop` carries the truthiness of `params.data.end` and
the outcome of the `Player.GetProperties` call that `getFinalPropsSafe`
will issue (`none` = that request fails). -/
inductive KodiNotif where
  | avstart
  | pause
  | resume
  | seekN
  | onStop (endFlag : Bool) (fetch : Option KodiProps)
  | other (method : String)

/-- Outcome of the `Player.GetProperties` request issued by one firing of
the progress-poll interval callback. -/
inductive PollOutcome where
  | success (props : KodiProps)
  | failure
  deriving DecidableEq

/-- One scheduler-serialized callback activation inside a session: a poll
tick, a notification, the transport close handler, or one of the staged
failure paths (each of which funnels into `fail`). -/
inductive SessInput where
  | poll (o : PollOutcome)
  | notif (n : KodiNotif)
  | wsClosed
  | launchFailed
  | badArgs
  | connectFailed
  | playFailed

/-- Output of running callbacks: final state, responded events in order,
and the number of `Player.GetProperties` requests issued. -/
structure SessOut where
  state : SessState
  events : List SessionEvent
  reads : Nat

/-- `kodi.onNotification` (lines 347-381).  The whole handler is guarded by
`endedOrStopped`.  `Player.OnStop` sets `endedOrStopped`, runs `cleanup()`,
reads the final properties via `getFinalPropsSafe`, closes the transport and
responds with one `stopped` event. -/
def onNotifHandler (st : SessState) (n : KodiNotif) : SessOut :=
  if st.endedOrStopped then ⟨st, [], 0⟩
  else
    match n with
    | .avstart => ⟨st, [SessionEvent.avstart], 0⟩
    | .pause => ⟨st, [SessionEvent.paused], 0⟩
    | .resume => ⟨st, [SessionEvent.resumed], 0⟩
    | .seekN => ⟨st, [SessionEvent.seekEv st.lastKnownPos st.lastKnownDur st.lastKnownSpeed], 0⟩
    | .other _ => ⟨st, [], 0⟩
    | .onStop endFlag fetch =>
        let st1 := cleanup { st with endedOrStopped := true }
        let out := getFinalPropsSafe st1 fetch
        let st2 := { out.1 with wsOpen := false }
        ⟨st2, [SessionEvent.stopped out.2.1.1 out.2.1.2.1 endFlag], out.2.2⟩

/-- One firing of the progress-poll interval callback (lines 419-442):
guarded by `endedOrStopped`; a successful read updates the last known
values and responds with a `progress` event; a failed read immediately
closes the transport (`kodi.close()`) and calls
`fail("Kodi tracking failed", "KODI_TRACK_FAILED")`. -/
def pollTick (st : SessState) (o : PollOutcome) : SessOut :=
  if st.endedOrStopped then ⟨st, [], 0⟩
  else
    match o with
    | .success props =>
        let pos := toSecondsFromKodiTime props.time
        let dur := toSecondsFromKodiTime props.totaltime
        let speed := props.speed.getD 0
        ⟨{ st with lastKnownPos := pos, lastKnownDur := dur, lastKnownSpeed := speed },
          [SessionEvent.progress pos dur speed], 1⟩
    | .failure =>
        let st1 := { st with wsOpen := false }
        let r := failSess st1 "KODI_TRACK_FAILED"
        ⟨r.1, r.2, 1⟩

/-- Dispatch of one serialized callback activation.  The staged failure
paths correspond to: launch failure (line 288), missing url (line 298),
connect failure (lines 340-343, after `kodi.close()`), play-stage failure
(lines 412-415, after `kodi.close()`), and the transport close handler
(lines 307-311). -/
def sessStep (st : SessState) : SessInput → SessOut
  | .poll o => pollTick st o
  | .notif n => onNotifHandler st n
  | .wsClosed =>
      if st.endedOrStopped then ⟨st, [], 0⟩
      else
        let r := failSess st "KODI_WS_CLOSED"
        ⟨r.1, r.2, 0⟩
  | .launchFailed =>
      let r := failSess st "KODI_LAUNCH_FAILED"
      ⟨r.1, r.2, 0⟩
  | .badArgs =>
      let r := failSess st "BAD_ARGS"
      ⟨r.1, r.2, 0⟩
  | .connectFailed =>
      let r := failSess { st with wsOpen := false } "KODI_WS_CONNECT_FAILED"
      ⟨r.1, r.2, 0⟩
  | .playFailed =>
      let r := failSess { st with wsOpen := false } "KODI_PLAY_FAILED"
      ⟨r.1, r.2, 0⟩

/-- Run a list of serialized callback activations in order. -/
def sessRun (st : SessState) : List SessInput → SessOut
  | [] => ⟨st, [], 0⟩
  | i :: is =>
      let o1 := sessStep st i
      let o2 := sessRun o1.state is
      ⟨o2.state, o1.events ++ o2.events, o1.reads + o2.reads⟩

/-- Session state right after `playAsync` is entered: nothing ended, no
poll timer, no connection, no player id, last known values 0. -/
def freshSession : SessState :=
  ⟨false, false, false, none, 0, 0, 0⟩

/-- Session state in the `PLAYING` stage with the poll interval installed,
the transport open, and a discovered player id. -/
def playingSession (pid : Nat) : SessState :=
  ⟨false, true, true, some pid, 0, 0, 0⟩

/-- A terminal event: a `stopped` or `error` response. -/
def isTerminalEv : SessionEvent → Bool
  | .stopped _ _ _ => true
  | .errorEv _ _ _ _ => true
  | _ => false

/-- A `KODI_TRACK_FAILED` error event. -/
def isTrackFailedEv : SessionEvent → Bool
  | .errorEv code _ _ _ => code = "KODI_TRACK_FAILED"
  | _ => false

/-! ## `KodiWsClient` pending-request bookkeeping (lines 55-213)

The client keeps `nextId` (monotonically increasing correlation ids), the
`pending` map from id to its completion continuation, and one armed deadline
timer per pending entry.  We record every call of a pending entry's
`resolve`/`reject` continuation in an append-only settle log, so that
"settles exactly once" is about the code's bookkeeping, not about the
JavaScript promise machinery deduplicating extra calls. -/

/-- How a pending request's continuation was invoked. -/
inductive SettleKind where
  | resolved
  | remoteError
  | localTimeout
  | closedError
  | sendError
  deriving DecidableEq

/-- The correlation state of one `KodiWsClient`: `pending` holds the ids in
the pending map, `timers` the ids whose deadline timer is still armed,
`settles` the log of continuation invocations. -/
structure WsClientState where
  nextId : Nat
  pending : List Nat
  timers : List Nat
  settles : List (Nat × SettleKind)

/-- Fresh client (constructor, lines 56-71): `nextId = 1`, empty map. -/
def wsInit : WsClientState :=
  ⟨1, [], [], []⟩

/-- Transport-level occurrences that drive the pending bookkeeping:

* `send ok` — `request(...)` is called (lines 181-205): it allocates the
  next id, arms the deadline timer and stores the entry; if `ws.send`
  throws (`ok = false`) the catch block disarms the timer, removes the
  entry and rejects.
* `response id isErr` — an inbound frame with this correlation id arrives
  (lines 119-133): if the id is pending, the entry is removed, its timer
  disarmed, and it is resolved (or rejected with the remote error).
* `timerFire id` — the deadline timer for `id` expires (lines 190-193);
  only an armed timer can fire, and firing disarms it; the handler removes
  the entry and rejects with the local RPC timeout.
* `closeEvt` — the socket close event (lines 145-155): every pending
  entry's timer is disarmed and the entry rejected with the closed error;
  the map is cleared. -/
inductive WsEvent where
  | send (ok : Bool)
  | response (id : Nat) (isErr : Bool)
  | timerFire (id : Nat)
  | closeEvt
  deriving DecidableEq

/-- One transport-level occurrence, as implemented by the handlers cited in
`WsEvent`. -/
def wsStep (st : WsClientState) : WsEvent → WsClientState
  | .send true =>
      { st with
          nextId := st.nextId + 1
          pending := st.pending ++ [st.nextId]
          timers := st.timers ++ [st.nextId] }
  | .send false =>
      { st with
          nextId := st.nextId + 1
          settles := st.settles ++ [(st.nextId, SettleKind.sendError)] }
  | .response id isErr =>
      if id ∈ st.pending then
        { st with
            pending := st.pending.erase id
            timers := st.timers.erase id
            settles := st.settles ++
              [(id, if isErr then SettleKind.remoteError else SettleKind.resolved)] }
      else st
  | .timerFire id =>
      if id ∈ st.timers then
        { st with
            timers := st.timers.erase id
            pending := st.pending.erase id
            settles := st.settles ++ [(id, SettleKind.localTimeout)] }
      else st
  | .closeEvt =>
      { st with
          timers := st.timers.filter (fun i => i ∉ st.pending)
          settles := st.settles ++ st.pending.map (fun i => (i, SettleKind.closedError))
          pending := [] }

/-- Run a list of transport-level occurrences in order. -/
def wsRun (st : WsClientState) : List WsEvent → WsClientState
  | [] => st
  | e :: es => wsRun (wsStep st e) es

/-- How many times the continuation of request `id` was invoked. -/
def settleCount (id : Nat) (st : WsClientState) : Nat :=
  st.settles.countP (fun s => s.1 = id)

/-! ## Inbound frame dispatch (`_setupWsHandlers`, lines 107-139)

The message handler parses the frame; a frame with an `id` field is treated
as a response (matched against the pending map, extra responses ignored)
and the handler returns; a frame without an `id` is handed to the single
registered notification handler only when both `msg.method` and
`msg.params` are truthy. -/

/-- A parsed inbound frame: presence of the correlation id, truthiness of
`msg.error`, `msg.method` (`some` = truthy string) and `msg.params`. -/
structure WsFrame where
  id : Option Nat
  hasError : Bool
  method : Option String
  hasParams : Bool
  deriving DecidableEq

/-- An inbound message: either a parsed frame or one `JSON.parse` rejects. -/
inductive InboundMsg where
  | parsed (f : WsFrame)
  | unparseable
  deriving DecidableEq

/-- What the message handler did with one inbound message. -/
inductive Dispatch where
  | responseSettled (id : Nat)
  | responseIgnored (id : Nat)
  | notification (method : String)
  | dropped
  deriving DecidableEq

/-- The message handler (lines 108-139), with `handlerOn` the truthiness of
`typeof this.onNotification === "function"` and `pending` the ids of the
pending map. -/
def handleFrame (pending : List Nat) (handlerOn : Bool) :
    InboundMsg → List Nat × Dispatch
  | .unparseable => (pending, Dispatch.dropped)
  | .parsed f =>
      match f.id with
      | some i =>
          if i ∈ pending then (pending.erase i, Dispatch.responseSettled i)
          else (pending, Dispatch.responseIgnored i)
      | none =>
          match f.method with
          | some m =>
              if f.hasParams ∧ handlerOn then (pending, Dispatch.notification m)
              else (pending, Dispatch.dropped)
          | none => (pending, Dispatch.dropped)

/-- Dispatch a list of inbound messages in arrival order, returning the
dispatch decisions in the same order. -/
def dispatchRun (pending : List Nat) (handlerOn : Bool) :
    List InboundMsg → List Nat × List Dispatch
  | [] => (pending, [])
  | msg :: msgs =>
      let r := handleFrame pending handlerOn msg
      let rest := dispatchRun r.1 handlerOn msgs
      (rest.1, r.2 :: rest.2)

/-- The notifications among a dispatch list, in order. -/
def notifMethods (ds : List Dispatch) : List String :=
  ds.filterMap (fun d => match d with | Dispatch.notification m => some m | _ => none)

/-- The frames a correct JSON-RPC notification dispatch should select: no
correlation id, truthy method, truthy params. -/
def notifOfMsg : InboundMsg → Option String
  | .parsed f =>
      match f.id, f.method with
      | none, some m => if f.hasParams then some m else none
      | _, _ => none
  | .unparseable => none

/-! ## Connection establishment (`KodiWsClient.connect`, lines 73-105, and
the connect stage of `playAsync`, lines 337-344)

`connect(timeoutMs)` opens one socket and races its `open`/`error` events
against a single `setTimeout(timeoutMs)`; the `done` flag makes exactly one
outcome fire.  The connect stage of `playAsync` calls `connect` exactly
once with the full `timeoutMs` budget; on rejection it runs `kodi.close()`
and `fail(..., "KODI_WS_CONNECT_FAILED")`. -/

/-- Behaviour of the remote endpoint towards one socket: it accepts at a
given time, errors at a given time, or never reacts at all. -/
inductive ConnectEnv where
  | opensAt (t : Nat)
  | errorsAt (t : Nat)
  | silent

/-- One `connect(timeoutMs)` call: result and elapsed milliseconds.  The
endpoint event wins only if it occurs strictly before the timeout fires. -/
def connectOnce (env : ConnectEnv) (timeoutMs : Nat) : Except String Unit × Nat :=
  match env with
  | .opensAt t =>
      if t < timeoutMs then (Except.ok (), t)
      else (Except.error "Kodi WS connect timeout", timeoutMs)
  | .errorsAt t =>
      if t < timeoutMs then (Except.error "ws error", t)
      else (Except.error "Kodi WS connect timeout", timeoutMs)
  | .silent => (Except.error "Kodi WS connect timeout", timeoutMs)

/-- The connect stage of `playAsync`: one `connect(timeoutMs)` call; on
failure the session fails with `KODI_WS_CONNECT_FAILED`.  Returns the
outcome, the elapsed milliseconds, and the number of connect attempts. -/
def connectStage (env : ConnectEnv) (timeoutMs : Nat) :
    Except String Unit × Nat × Nat :=
  let r := connectOnce env timeoutMs
  match r.1 with
  | Except.ok _ => (Except.ok (), r.2, 1)
  | Except.error _ => (Except.error "KODI_WS_CONNECT_FAILED", r.2, 1)

/-! ## Active-player discovery (`playAsync` stage 5, lines 394-404)

After a successful `Player.Open`, the code loops `for (let i = 0; i < 12;
i++)`: it requests `Player.GetActivePlayers`; if the response array is
nonempty it takes `active[0].playerid` and breaks; otherwise it sleeps
150 ms and retries.  If no id was found the stage throws, which the catch
block turns into `fail(..., "KODI_PLAY_FAILED")`. -/

/-- The discovery loop from iteration `i` with `fuel` iterations left.
`responses i` is the `Player.GetActivePlayers` result array (player ids) of
the request issued in iteration `i`.  Returns the discovered id (if any),
the number of requests issued, and the total milliseconds slept. -/
def activePlayersAux (responses : Nat → List Nat) : Nat → Nat → Option Nat × Nat × Nat
  | _, 0 => (none, 0, 0)
  | i, fuel + 1 =>
      match responses i with
      | p :: _ => (some p, 1, 0)
      | [] =>
          let r := activePlayersAux responses (i + 1) fuel
          (r.1, r.2.1 + 1, r.2.2 + 150)

/-- The whole discovery loop: 12 iterations, 150 ms sleeps. -/
def activePlayers (responses : Nat → List Nat) : Option Nat × Nat × Nat :=
  activePlayersAux responses 0 12

/-- Outcome of the play stage after a successful `Player.Open`: the
discovered player id, or the `KODI_PLAY_FAILED` failure raised when the
loop ends with `playerId` still null (lines 403-415). -/
def playStageResult (responses : Nat → List Nat) : Except String Nat :=
  match (activePlayers responses).1 with
  | some pid => Except.ok pid
  | none => Except.error "KODI_PLAY_FAILED"

/-! ## HTTP-variant job preemption (`kodi-bridge.js`, HTTP document,
lines 627-715)

The HTTP variant keeps a module-level `currentJob`; a new `playAsync`
request sets `currentJob.cancelled = true` and installs its own job
("latest wins").  The worker (`playWorker`/`waitKodiReady`) checks
`job.cancelled` only at loop boundaries; a loop body that already passed
the check still sleeps and issues its HTTP request.  When the worker
returns and the job was cancelled, the handler responds a final
`CANCELLED` frame to its (still subscribed) caller. -/

/-- Observable occurrences of the HTTP service, in log order.
`registered sid` marks the instant `currentJob = job` executes for session
`sid`; `started`, `finalCancelled` and `finalDone` are `message.respond`
calls of session `sid`; `kodiCall sid` is an HTTP request to Kodi issued by
session `sid`'s worker. -/
inductive HServEvent where
  | registered (sid : Nat)
  | started (sid : Nat)
  | kodiCall (sid : Nat)
  | finalCancelled (sid : Nat)
  | finalDone (sid : Nat)
  deriving DecidableEq

/-- Per-job state: the `cancelled` flag, whether the worker loop has passed
a `!job.cancelled` check and is inside the body (sleep + HTTP request
pending), and whether the handler already sent the final response. -/
structure HJob where
  cancelled : Bool
  inBody : Bool
  finished : Bool
  subscribed : Bool
  deriving DecidableEq

/-- Service state: the `currentJob` slot, the jobs by session id, the log. -/
structure HState where
  currentJob : Option Nat
  jobs : List (Nat × HJob)
  log : List HServEvent

/-- Initial HTTP service state (`let currentJob = null`). -/
def hInit : HState :=
  ⟨none, [], []⟩

/-- Look up a job. -/
def getJob (sid : Nat) (jobs : List (Nat × HJob)) : Option HJob :=
  match jobs with
  | [] => none
  | (s, j) :: rest => if s = sid then some j else getJob sid rest

/-- Replace (or insert) a job. -/
def setJob (sid : Nat) (j : HJob) (jobs : List (Nat × HJob)) : List (Nat × HJob) :=
  match jobs with
  | [] => [(sid, j)]
  | (s, j0) :: rest => if s = sid then (s, j) :: rest else (s, j0) :: setJob sid j rest

/-- Scheduler steps of the HTTP service, serialized by the event loop:

* `register sid sub` — the `playAsync` handler runs its synchronous prefix
  (lines 643-657): `if (currentJob) currentJob.cancelled = true`, install
  the new job, respond `STARTED`.
* `loopEnter sid` — the worker evaluates a `!job.cancelled` loop condition
  (lines 588, 599, 607): if the job is not cancelled it enters the body.
* `loopBody sid` — a body already entered completes its sleep and issues
  its HTTP request to Kodi, regardless of cancellation in between.
* `finishCheck sid` — the worker has returned and the handler runs its
  final-response logic (lines 672-697): `CANCELLED` if the job was
  cancelled (and subscribed), otherwise the final result; then
  `if (currentJob === job) currentJob = null`. -/
inductive HCmd where
  | register (sid : Nat) (sub : Bool)
  | loopEnter (sid : Nat)
  | loopBody (sid : Nat)
  | finishCheck (sid : Nat)
  deriving DecidableEq

/-- Set the `cancelled` flag of the current job, if any
(`if (currentJob) currentJob.cancelled = true`, line 644). -/
def cancelCurrent (st : HState) : List (Nat × HJob) :=
  match st.currentJob with
  | none => st.jobs
  | some j =>
      match getJob j st.jobs with
      | none => st.jobs
      | some job => setJob j { job with cancelled := true } st.jobs

/-- One scheduler step of the HTTP service. -/
def hStep (st : HState) : HCmd → HState
  | .register sid sub =>
      let jobs1 := cancelCurrent st
      let jobs2 := setJob sid ⟨false, false, false, sub⟩ jobs1
      { currentJob := some sid
        jobs := jobs2
        log := st.log ++ [HServEvent.registered sid, HServEvent.started sid] }
  | .loopEnter sid =>
      match getJob sid st.jobs with
      | none => st
      | some job =>
          if job.finished ∨ job.inBody ∨ job.cancelled then st
          else { st with jobs := setJob sid { job with inBody := true } st.jobs }
  | .loopBody sid =>
      match getJob sid st.jobs with
      | none => st
      | some job =>
          if job.inBody then
            { st with
                jobs := setJob sid { job with inBody := false } st.jobs
                log := st.log ++ [HServEvent.kodiCall sid] }
          else st
  | .finishCheck sid =>
      match getJob sid st.jobs with
      | none => st
      | some job =>
          if job.finished ∨ job.inBody then st
          else
            let fin : List HServEvent :=
              if job.cancelled then
                if job.subscribed then [HServEvent.finalCancelled sid] else []
              else [HServEvent.finalDone sid]
            { currentJob := if st.currentJob = some sid then none else st.currentJob
              jobs := setJob sid { job with finished := true } st.jobs
              log := st.log ++ fin }

/-- Run scheduler steps in order. -/
def hRun (st : HState) : List HCmd → HState
  | [] => st
  | c :: cs => hRun (hStep st c) cs

/-- The strict suffix of the log after the first occurrence of `marker`. -/
def logAfter (marker : HServEvent) (log : List HServEvent) : List HServEvent :=
  (log.dropWhile (fun e => e ≠ marker)).drop 1

/-- The caller-visible responses of session `sid` among a log
(`message.respond` calls: `started`, `finalCancelled`, `finalDone`). -/
def respondsOf (sid : Nat) (log : List HServEvent) : List HServEvent :=
  log.filter (fun e =>
    e = HServEvent.started sid ∨ e = HServEvent.finalCancelled sid ∨
      e = HServEvent.finalDone sid)

/-! ## Episode/season filename parser (`src/interaction/episodes_parser.js`)

`parse(data)` runs nine case-insensitive regular expressions over the last
`/`-separated segment of `data.path`, each match overwriting the season
and/or episode found so far, falls back to `parseInt` of the first three
characters of `data.filename` when no episode was found, and finally picks
`hash_string`.  The matchers below implement each regex literally: leftmost
match over start positions, greedy digit runs, explicit backtracking where
the pattern allows several widths. -/

/-- Case-insensitive character comparison (the `/i` flag). -/
def chEq (c d : Char) : Bool :=
  c.toLower = d.toLower

/-- Value of a nonempty digit string (`parseInt` on a captured group). -/
def digitsToNat (ds : List Char) : Nat :=
  ds.foldl (fun n c => n * 10 + (c.toNat - Char.toNat '0')) 0

/-- Captured groups of one regex match. -/
structure MatchGroups where
  season : Option (List Char)
  episode : Option (List Char)

/-- `[ |\[(]` — the leading character class of regexes 4 and 5. -/
def classCh (c : Char) : Bool :=
  c = ' ' ∨ c = '|' ∨ c = '[' ∨ c = '('

/-- Consume the optional `\.?` of regex 1 (the following required `e` can
never match a literal `.`, so consuming a leading dot is forced). -/
def dropDotOpt : List Char → List Char
  | '.' :: r => r
  | r => r

/-- Consume the optional `p?` of regex 1: a `p` is consumed exactly when
digits follow it (otherwise backtracking retries without the `p` and the
digit run must start at the `p`, which fails). -/
def dropPOpt : List Char → List Char
  | [] => []
  | p :: r =>
      if chEq p 'p' then
        match r with
        | d :: _ => if d.isDigit then r else p :: r
        | [] => p :: r
      else p :: r

/-- `/s(?<season>[0-9]+)\.?ep?(?<episode>[0-9]+)/i` at one position. -/
def m1At : List Char → Option MatchGroups
  | [] => none
  | c :: rest =>
      if chEq c 's' then
        let sp := rest.span Char.isDigit
        if sp.1.isEmpty then none
        else
          match dropDotOpt sp.2 with
          | [] => none
          | e :: r2 =>
              if chEq e 'e' then
                let ep := (dropPOpt r2).span Char.isDigit
                if ep.1.isEmpty then none else some ⟨some sp.1, some ep.1⟩
              else none
      else none

/-- `/s(?<season>[0-9]{2})(?<episode>[0-9]+)/i` at one position: an `s`
followed by at least three digits. -/
def m2At : List Char → Option MatchGroups
  | [] => none
  | c :: rest =>
      if chEq c 's' then
        match rest.span Char.isDigit with
        | (a :: b :: d :: ds, _) => some ⟨some [a, b], some (d :: ds)⟩
        | _ => none
      else none

/-- `/s(?<season>[0-9]+)/i` at one position. -/
def m3At : List Char → Option MatchGroups
  | [] => none
  | c :: rest =>
      if chEq c 's' then
        let sp := rest.span Char.isDigit
        if sp.1.isEmpty then none else some ⟨some sp.1, none⟩
      else none

/-- The `x(?<episode>[0-9]+)` tail of regex 4, given the season digits. -/
def afterX (season : List Char) : List Char → Option MatchGroups
  | [] => none
  | x :: r2 =>
      if chEq x 'x' then
        let ep := r2.span Char.isDigit
        if ep.1.isEmpty then none else some ⟨some season, some ep.1⟩
      else none

/-- `/[ |\[(](?<season>[0-9]{1,2})x(?<episode>[0-9]+)/i` at one position:
greedy `{1,2}` tries two digits before one. -/
def m4At : List Char → Option MatchGroups
  | [] => none
  | c :: rest =>
      if classCh c then
        match rest with
        | [] => none
        | a :: rest1 =>
            if a.isDigit then
              match rest1 with
              | [] => afterX [a] []
              | b :: rest2 =>
                  if b.isDigit then
                    match afterX [a, b] rest2 with
                    | some g => some g
                    | none => afterX [a] (b :: rest2)
                  else afterX [a] rest1
            else none
      else none

/-- The ` of (?<episode>[0-9]+)` tail of regex 5, given the season digits. -/
def afterOf (season : List Char) : List Char → Option MatchGroups
  | s1 :: o :: f :: s2 :: r2 =>
      if s1 = ' ' ∧ chEq o 'o' ∧ chEq f 'f' ∧ s2 = ' ' then
        let ep := r2.span Char.isDigit
        if ep.1.isEmpty then none else some ⟨some season, some ep.1⟩
      else none
  | _ => none

/-- `/[ |\[(](?<season>[0-9]{1,3}) of (?<episode>[0-9]+)/i` at one
position: greedy `{1,3}` tries three digits, then two, then one. -/
def m5At : List Char → Option MatchGroups
  | [] => none
  | c :: rest =>
      if classCh c then
        match rest with
        | [] => none
        | a :: r1 =>
            if a.isDigit then
              match r1 with
              | [] => afterOf [a] []
              | b :: r2 =>
                  if b.isDigit then
                    match r2 with
                    | [] =>
                        match afterOf [a, b] [] with
                        | some g => some g
                        | none => afterOf [a] [b]
                    | d :: r3 =>
                        if d.isDigit then
                          match afterOf [a, b, d] r3 with
                          | some g => some g
                          | none =>
                              match afterOf [a, b] (d :: r3) with
                              | some g => some g
                              | none => afterOf [a] (b :: d :: r3)
                        else
                          match afterOf [a, b] r2 with
                          | some g => some g
                          | none => afterOf [a] (b :: r2)
                  else afterOf [a] r1
            else none
      else none

/-- `/ep(?<episode>[0-9]+)/i` at one position. -/
def m6At : List Char → Option MatchGroups
  | e :: p :: r =>
      if chEq e 'e' ∧ chEq p 'p' then
        let ep := r.span Char.isDigit
        if ep.1.isEmpty then none else some ⟨none, some ep.1⟩
      else none
  | _ => none

/-- `/ep\.(?<episode>[0-9]+)/i` at one position. -/
def m7At : List Char → Option MatchGroups
  | e :: p :: dot :: r =>
      if chEq e 'e' ∧ chEq p 'p' ∧ dot = '.' then
        let ep := r.span Char.isDigit
        if ep.1.isEmpty then none else some ⟨none, some ep.1⟩
      else none
  | _ => none

/-- `/ - (?<episode>[0-9]+)/i` at one position. -/
def m8At : List Char → Option MatchGroups
  | s1 :: dash :: s2 :: r =>
      if s1 = ' ' ∧ dash = '-' ∧ s2 = ' ' then
        let ep := r.span Char.isDigit
        if ep.1.isEmpty then none else some ⟨none, some ep.1⟩
      else none
  | _ => none

/-- `/\[(?<episode>[0-9]+)]/i` at one position. -/
def m9At : List Char → Option MatchGroups
  | [] => none
  | b :: r =>
      if b = '[' then
        match r.span Char.isDigit with
        | (d :: ds, ']' :: _) => some ⟨none, some (d :: ds)⟩
        | _ => none
      else none

/-- Leftmost match: try the pattern at every start position in order
(`String.prototype.match` without the `g` flag). -/
def scanMatch (m : List Char → Option MatchGroups) : List Char → Option MatchGroups
  | [] => m []
  | c :: cs =>
      match m (c :: cs) with
      | some g => some g
      | none => scanMatch m cs

/-- The nine regexes, in source order. -/
def regexpMatchers : List (List Char → Option MatchGroups) :=
  [m1At, m2At, m3At, m4At, m5At, m6At, m7At, m8At, m9At]

/-- One iteration of the `regexps.forEach` body (lines 22-33): a match with
a `season` group overwrites the season; a match with an `episode` group
first promotes season 0 to 1 for serials, then overwrites the episode. -/
def applyMatcher (serialMovie : Bool) (base : List Char) (acc : Int × Int)
    (m : List Char → Option MatchGroups) : Int × Int :=
  match scanMatch m base with
  | none => acc
  | some g =>
      let season1 : Int :=
        match g.season with
        | some ds => Int.ofNat (digitsToNat ds)
        | none => acc.1
      match g.episode with
      | some ds =>
          let season2 := if serialMovie ∧ season1 = 0 then 1 else season1
          (season2, Int.ofNat (digitsToNat ds))
      | none => (season1, acc.2)

/-- The whole `regexps.forEach` fold over `(season, episode)`. -/
def applyAllRegexps (serialMovie : Bool) (base : List Char) (init : Int × Int) : Int × Int :=
  regexpMatchers.foldl (applyMatcher serialMovie base) init

/-- JavaScript `parseInt` on a short string: skip leading whitespace, an
optional sign, then a digit prefix; `none` models `NaN`. -/
def jsParseIntPrefix (cs : List Char) : Option Int :=
  let cs1 := cs.dropWhile (fun c => c = ' ' ∨ c = '\t' ∨ c = '\n' ∨ c = '\r')
  match cs1 with
  | '-' :: r =>
      let sp := r.span Char.isDigit
      if sp.1.isEmpty then none else some (-(Int.ofNat (digitsToNat sp.1)))
  | '+' :: r =>
      let sp := r.span Char.isDigit
      if sp.1.isEmpty then none else some (Int.ofNat (digitsToNat sp.1))
  | r =>
      let sp := r.span Char.isDigit
      if sp.1.isEmpty then none else some (Int.ofNat (digitsToNat sp.1))

/-- `data.path.split('/').pop()`: the segment after the last slash. -/
def lastSegment (cs : List Char) : List Char :=
  cs.foldl (fun acc c => if c = '/' then [] else acc ++ [c]) []

/-- The `data.movie` fields the parser reads; `number_of_seasons = 0`
models an absent or zero field (both falsy). -/
structure MovieInfo where
  number_of_seasons : Nat
  original_title : String

/-- The input record of `parse`. -/
structure ParseData where
  path : String
  filename : String
  is_file : Bool
  movie : MovieInfo

/-- The result record of `parse`. -/
structure ParseResult where
  hash_string : String
  season : Int
  episode : Int
  serial : Bool

/-- `parse(data)` (episodes_parser.js lines 1-54). -/
def parse (data : ParseData) : ParseResult :=
  let serialMovie := data.movie.number_of_seasons ≠ 0
  let initSeason : Int := if serialMovie then 1 else 0
  let base := lastSegment data.path.toList
  let se := applyAllRegexps serialMovie base (initSeason, 0)
  let episode1 : Int :=
    if se.2 = 0 then
      match jsParseIntPrefix (data.filename.toList.take 3) with
      | some ep => ep
      | none => se.2
    else se.2
  let hash : String :=
    if data.is_file then data.path
    else if serialMovie then
      toString se.1 ++ toString episode1 ++ data.movie.original_title
    else if data.movie.original_title ≠ "" ∧ ¬ serialMovie then
      data.movie.original_title
    else data.path
  ⟨hash, se.1, episode1, serialMovie⟩

/-! ## Invariants used by the theorems -/

/-- Structural invariant of the `KodiWsClient` correlation state: the armed
deadline timers are exactly the pending entries, pending ids are distinct
and below `nextId`, and no continuation of a not-yet-allocated id was ever
invoked. -/
def WsInv (st : WsClientState) : Prop :=
  st.timers = st.pending ∧ st.pending.Nodup ∧
    (∀ i ∈ st.pending, i < st.nextId) ∧
    (∀ i, st.nextId ≤ i → settleCount i st = 0)

/-- Lifecycle invariant of one tracked request `id`: its id was allocated,
and it is either still pending with its continuation never invoked, or no
longer pending with its continuation invoked exactly once. -/
def TrackInv (id : Nat) (st : WsClientState) : Prop :=
  id < st.nextId ∧
    ((id ∈ st.pending ∧ settleCount id st = 0) ∨
      (id ∉ st.pending ∧ settleCount id st = 1))

/-! ## Session-model helper lemmas -/

theorem sessRun_append (st : SessState) (xs ys : List SessInput) :
    sessRun st (xs ++ ys) =
      ⟨(sessRun (sessRun st xs).state ys).state,
        (sessRun st xs).events ++ (sessRun (sessRun st xs).state ys).events,
        (sessRun st xs).reads + (sessRun (sessRun st xs).state ys).reads⟩ := by
  induction xs generalizing st with
  | nil => simp [sessRun]
  | cons x xs ih => simp [sessRun, ih, List.append_assoc, Nat.add_assoc]

theorem sessStep_ended (st : SessState) (i : SessInput)
    (h : st.endedOrStopped = true) :
    (sessStep st i).events = [] ∧ (sessStep st i).state.endedOrStopped = true := by
  cases i <;> simp [sessStep, pollTick, onNotifHandler, failSess, h]

theorem sessRun_ended (st : SessState) (is : List SessInput)
    (h : st.endedOrStopped = true) :
    (sessRun st is).events = [] ∧ (sessRun st is).state.endedOrStopped = true := by
  induction is generalizing st with
  | nil => simpa [sessRun] using h
  | cons i is ih =>
      have h1 := sessStep_ended st i h
      have h2 := ih (sessStep st i).state h1.2
      simp [sessRun, h1.1, h2.1, h2.2]

theorem pollRun_ended (st : SessState) (os : List PollOutcome)
    (h : st.endedOrStopped = true) :
    sessRun st (os.map SessInput.poll) = ⟨st, [], 0⟩ := by
  induction os with
  | nil => rfl
  | cons o os ih => simp [sessRun, sessStep, pollTick, h, ih]

theorem pollRun_no_failure (st : SessState) (os : List PollOutcome)
    (hend : st.endedOrStopped = false)
    (hfail : ∀ o ∈ os, o ≠ PollOutcome.failure) :
    (sessRun st (os.map SessInput.poll)).state.endedOrStopped = false ∧
    (sessRun st (os.map SessInput.poll)).state.pollTimer = st.pollTimer ∧
    (sessRun st (os.map SessInput.poll)).state.wsOpen = st.wsOpen ∧
    (sessRun st (os.map SessInput.poll)).state.playerId = st.playerId := by
  induction os generalizing st with
  | nil => simp [sessRun, hend]
  | cons o os ih =>
      cases o with
      | success props =>
          have h2 := ih { st with
              lastKnownPos := toSecondsFromKodiTime props.time
              lastKnownDur := toSecondsFromKodiTime props.totaltime
              lastKnownSpeed := props.speed.getD 0 }
            (by simpa using hend)
            (fun o ho => hfail o (List.mem_cons_of_mem _ ho))
          simpa [sessRun, sessStep, pollTick, hend] using h2
      | failure => exact absurd rfl (hfail PollOutcome.failure (List.mem_cons_self _ _))

/-! ## Claim theorems: time conversion and parser -/

/-- Claim C8: the time-value conversion maps a record with
hour/minute/second/millisecond fields (each defaulting to 0 when absent) to
`hours*3600 + minutes*60 + seconds + milliseconds/1000` total seconds; in
particular an hour/2 min/3 s/500 ms record maps to 3723.5 seconds, and an
absent time value maps to 0. -/
theorem C8_time_conversion :
    (∀ t : KodiTime,
        toSecondsFromKodiTime (some t) =
          t.hours.getD 0 * 3600 + t.minutes.getD 0 * 60 + t.seconds.getD 0 +
            t.milliseconds.getD 0 / 1000) ∧
    toSecondsFromKodiTime (some ⟨some 1, some 2, some 3, some 500⟩) = 7447 / 2 ∧
    toSecondsFromKodiTime none = 0 := by
  refine ⟨fun t => rfl, by norm_num [toSecondsFromKodiTime], rfl⟩

/-- Claim C10: whenever `data.is_file` is truthy, the parser returns
`hash_string = data.path`, regardless of the filename, the matched
season/episode numbers, or the movie metadata. -/
theorem C10_is_file_hash (data : ParseData) (h : data.is_file = true) :
    (parse data).hash_string = data.path := by
  simp only [parse, h, if_true]

/-- Witness for C10 at a concrete input. -/
theorem C10_is_file_hash_witness :
    (parse ⟨"a/S01E02.mkv", "S01E02.mkv", true, ⟨2, "T"⟩⟩).hash_string =
      "a/S01E02.mkv" :=
  C10_is_file_hash ⟨"a/S01E02.mkv", "S01E02.mkv", true, ⟨2, "T"⟩⟩ rfl

/-! ## Claim theorems: progress-poll tolerance (C1) -/

/-- Counterexample to claim C1: the claim says two consecutive failed
progress reads followed by a success never raise `TRACK_FAILED`; in the
code the very first failed read already responds with the
`KODI_TRACK_FAILED` error (there is no consecutive-failure counter). -/
theorem C1_counterexample :
    (sessRun (playingSession 1)
        (([PollOutcome.failure, PollOutcome.failure,
            PollOutcome.success ⟨none, none, none⟩]).map SessInput.poll)).events =
      [SessionEvent.errorEv "KODI_TRACK_FAILED" 0 0 0] := by
  rfl

/-- Claim C1 as amended: there is no failure tolerance.  The first failed
progress read (after any run of successful reads) immediately closes the
transport, stops polling, and responds with the `KODI_TRACK_FAILED` error
exactly once; every later poll tick is absorbed without any event. -/
theorem C1_amended (pid : Nat) (pre post : List PollOutcome)
    (hpre : ∀ o ∈ pre, o ≠ PollOutcome.failure) :
    (sessRun (playingSession pid)
        ((pre ++ PollOutcome.failure :: post).map SessInput.poll)).events =
      (sessRun (playingSession pid) (pre.map SessInput.poll)).events ++
        [SessionEvent.errorEv "KODI_TRACK_FAILED"
          (sessRun (playingSession pid) (pre.map SessInput.poll)).state.lastKnownPos
          (sessRun (playingSession pid) (pre.map SessInput.poll)).state.lastKnownDur
          (sessRun (playingSession pid)
            (pre.map SessInput.poll)).state.lastKnownSpeed] ∧
    (sessRun (playingSession pid)
        ((pre ++ PollOutcome.failure :: post).map SessInput.poll)).state.endedOrStopped
        = true ∧
    (sessRun (playingSession pid)
        ((pre ++ PollOutcome.failure :: post).map SessInput.poll)).state.pollTimer
        = false ∧
    (sessRun (playingSession pid)
        ((pre ++ PollOutcome.failure :: post).map SessInput.poll)).state.wsOpen
        = false := by
  have hmap : (pre ++ PollOutcome.failure :: post).map SessInput.poll =
      pre.map SessInput.poll ++
        (SessInput.poll PollOutcome.failure :: post.map SessInput.poll) := by
    simp
  have hflags := pollRun_no_failure (playingSession pid) pre rfl hpre
  set mid := sessRun (playingSession pid) (pre.map SessInput.poll) with hmid
  have hstep : sessStep mid.state (SessInput.poll PollOutcome.failure) =
      ⟨cleanup { mid.state with wsOpen := false, endedOrStopped := true },
        [SessionEvent.errorEv "KODI_TRACK_FAILED" mid.state.lastKnownPos
          mid.state.lastKnownDur mid.state.lastKnownSpeed], 1⟩ := by
    simp [sessStep, pollTick, failSess, hflags.1, cleanup]
  have hpost := pollRun_ended
    (cleanup { mid.state with wsOpen := false, endedOrStopped := true }) post rfl
  have hmidrun : sessRun mid.state
      (SessInput.poll PollOutcome.failure :: post.map SessInput.poll) =
      ⟨cleanup { mid.state with wsOpen := false, endedOrStopped := true },
        [SessionEvent.errorEv "KODI_TRACK_FAILED" mid.state.lastKnownPos
          mid.state.lastKnownDur mid.state.lastKnownSpeed], 1⟩ := by
    simp [sessRun, hstep, hpost]
  rw [hmap, sessRun_append]
  refine ⟨?_, ?_, ?_, ?_⟩ <;> simp [← hmid, hmidrun, cleanup]

/-- Witness for the amended C1 at a concrete input: one successful read,
then a failed read, then a further (absorbed) successful read. -/
theorem C1_amended_witness :
    (∀ o ∈ [PollOutcome.success ⟨none, none, some 1⟩], o ≠ PollOutcome.failure) ∧
    (sessRun (playingSession 1)
        (([PollOutcome.success ⟨none, none, some 1⟩] ++ PollOutcome.failure ::
            [PollOutcome.success ⟨none, none, none⟩]).map SessInput.poll)).events =
      (sessRun (playingSession 1)
          ([PollOutcome.success ⟨none, none, some 1⟩].map SessInput.poll)).events ++
        [SessionEvent.errorEv "KODI_TRACK_FAILED"
          (sessRun (playingSession 1)
            ([PollOutcome.success ⟨none, none, some 1⟩].map
              SessInput.poll)).state.lastKnownPos
          (sessRun (playingSession 1)
            ([PollOutcome.success ⟨none, none, some 1⟩].map
              SessInput.poll)).state.lastKnownDur
          (sessRun (playingSession 1)
            ([PollOutcome.success ⟨none, none, some 1⟩].map
              SessInput.poll)).state.lastKnownSpeed] :=
  ⟨by decide,
    (C1_amended 1 [PollOutcome.success ⟨none, none, some 1⟩]
      [PollOutcome.success ⟨none, none, none⟩] (by decide)).1⟩

/-! ## Claim theorems: connection establishment (C3) -/

/-- Counterexample to claim C3: the claim says that against an endpoint
that never accepts, connection establishment makes at least
`floor(T / 4000)` attempts before failing at the overall deadline `T`.
With the default `timeoutMs = 20000` that is at least 5 attempts; the code
calls `connect` exactly once with the full budget — 1 attempt, not 5. -/
theorem C3_counterexample :
    (connectStage ConnectEnv.silent 20000).2.2 = 1 ∧
    ¬ 20000 / 4000 ≤ (connectStage ConnectEnv.silent 20000).2.2 := by
  decide

/-- Claim C3 as amended: connection establishment makes exactly one
`connect` attempt whose per-attempt timeout is the whole `timeoutMs`
budget (there is no retry loop, no growing per-attempt timeout and no
backoff); against an endpoint that never accepts it fails with
`KODI_WS_CONNECT_FAILED` at exactly `timeoutMs`, having made exactly one
attempt. -/
theorem C3_amended (timeoutMs : Nat) :
    connectStage ConnectEnv.silent timeoutMs =
      (Except.error "KODI_WS_CONNECT_FAILED", timeoutMs, 1) ∧
    ∀ env, (connectStage env timeoutMs).2.2 = 1 := by
  refine ⟨rfl, fun env => ?_⟩
  unfold connectStage
  cases h : (connectOnce env timeoutMs).1 <;> simp [h]

/-! ## Claim theorems: active-player discovery (C7) -/

theorem activePlayersAux_all_empty (responses : Nat → List Nat) (i fuel : Nat)
    (h : ∀ j, i ≤ j → j < i + fuel → responses j = []) :
    activePlayersAux responses i fuel = (none, fuel, 150 * fuel) := by
  induction fuel generalizing i with
  | zero => simp [activePlayersAux]
  | succ n ih =>
      have hi : responses i = [] := h i (le_refl i) (by omega)
      have hrec := ih (i + 1) (fun j hj1 hj2 => h j (by omega) (by omega))
      simp [activePlayersAux, hi, hrec]
      omega

theorem activePlayersAux_found (responses : Nat → List Nat) (k : Nat)
    (p : Nat) (ps : List Nat) :
    ∀ i fuel, k < fuel → (∀ j, j < k → responses (i + j) = []) →
    responses (i + k) = p :: ps →
    activePlayersAux responses i fuel = (some p, k + 1, 150 * k) := by
  induction k with
  | zero =>
      intro i fuel hk hempty hfound
      obtain ⟨m, rfl⟩ := Nat.exists_eq_add_of_lt hk
      simp only [Nat.add_zero] at hfound
      simp [activePlayersAux, hfound]
  | succ k ih =>
      intro i fuel hk hempty hfound
      obtain ⟨m, rfl⟩ := Nat.exists_eq_add_of_lt hk
      have hi : responses i = [] := by
        have := hempty 0 (Nat.succ_pos k)
        simpa using this
      have hrec := ih (i + 1) (k + 1 + m) (by omega)
        (fun j hj => by
          have := hempty (j + 1) (by omega)
          simpa [Nat.add_assoc, Nat.add_comm, Nat.add_left_comm] using this)
        (by simpa [Nat.add_assoc, Nat.add_comm, Nat.add_left_comm] using hfound)
      have hfuel : k + 1 + m + 1 = (k + 1 + m) + 1 := rfl
      simp [activePlayersAux, hi, hrec]
      omega

/-- Counterexample to claim C7: the claim says the active-player discovery
loop makes up to 14 attempts; so a player id that first becomes available
at attempt 13 would still be discovered.  The code's loop makes exactly 12
attempts (`for (let i = 0; i < 12; i++)`): with responses that are empty
for the first 12 attempts and nonempty from attempt 13 on, discovery
returns no id after exactly 12 requests and the stage fails with
`KODI_PLAY_FAILED`. -/
theorem C7_counterexample :
    (activePlayers fun i => if 12 ≤ i then [1] else []).1 = none ∧
    (activePlayers fun i => if 12 ≤ i then [1] else []).2.1 = 12 ∧
    playStageResult (fun i => if 12 ≤ i then [1] else []) =
      Except.error "KODI_PLAY_FAILED" := by
  exact ⟨rfl, rfl, rfl⟩

/-- Claim C7 as amended: after a successful `Player.Open`, the discovery
loop polls `Player.GetActivePlayers` for up to 12 attempts, sleeping 150 ms
after each empty response; as soon as a nonempty response arrives the first
entry's player id is taken, and if all 12 responses are empty the stage
fails with `KODI_PLAY_FAILED`. -/
theorem C7_amended (responses : Nat → List Nat) :
    ((∀ i, i < 12 → responses i = []) →
        activePlayers responses = (none, 12, 1800) ∧
        playStageResult responses = Except.error "KODI_PLAY_FAILED") ∧
    (∀ k p ps, k < 12 → (∀ i, i < k → responses i = []) →
        responses k = p :: ps →
        activePlayers responses = (some p, k + 1, 150 * k) ∧
        playStageResult responses = Except.ok p) := by
  constructor
  · intro h
    have ha : activePlayers responses = (none, 12, 1800) := by
      have := activePlayersAux_all_empty responses 0 12
        (fun j hj1 hj2 => h j (by omega))
      simpa [activePlayers] using this
    exact ⟨ha, by simp [playStageResult, ha]⟩
  · intro k p ps hk hempty hfound
    have ha : activePlayers responses = (some p, k + 1, 150 * k) := by
      have := activePlayersAux_found responses k p ps 0 12 hk
        (fun j hj => by simpa using hempty j hj) (by simpa using hfound)
      simpa [activePlayers] using this
    exact ⟨ha, by simp [playStageResult, ha]⟩

/-- Witness for the amended C7: all-empty responses give up after 12
attempts; a response first nonempty at attempt 3 is discovered after 2
sleeps. -/
theorem C7_amended_witness :
    activePlayers (fun _ => []) = (none, 12, 1800) ∧
    activePlayers (fun i => if i = 2 then [5] else []) = (some 5, 3, 300) :=
  ⟨((C7_amended fun _ => []).1 (fun i _ => rfl)).1,
    (((C7_amended fun i => if i = 2 then [5] else []).2 2 5 []
      (by decide) (by decide) (by decide)).1)⟩

/-! ## Claim theorems: notification dispatch (C9) -/

/-- Counterexample to claim C9: the claim says every inbound frame with no
correlation id and a method name is dispatched to the notification
handler; the code additionally requires a truthy `msg.params`, so a frame
with a method but no params is dropped. -/
theorem C9_counterexample :
    (handleFrame [] true
        (InboundMsg.parsed ⟨none, false, some "Player.OnStop", false⟩)).2 =
      Dispatch.dropped := by
  rfl

/-- Claim C9 as amended: every inbound frame with no correlation id, a
truthy method name and a truthy params payload is dispatched to the single
registered notification handler, in arrival order (frames without params
are dropped); a frame carrying a correlation id is consumed by the
response path and is never dispatched as a notification. -/
theorem notifMethods_settled (i : Nat) (ds : List Dispatch) :
    notifMethods (Dispatch.responseSettled i :: ds) = notifMethods ds := rfl

theorem notifMethods_ignored (i : Nat) (ds : List Dispatch) :
    notifMethods (Dispatch.responseIgnored i :: ds) = notifMethods ds := rfl

theorem notifMethods_notification (m : String) (ds : List Dispatch) :
    notifMethods (Dispatch.notification m :: ds) = m :: notifMethods ds := rfl

theorem notifMethods_dropped (ds : List Dispatch) :
    notifMethods (Dispatch.dropped :: ds) = notifMethods ds := rfl

theorem C9_amended (pending : List Nat) (msgs : List InboundMsg) :
    notifMethods (dispatchRun pending true msgs).2 = msgs.filterMap notifOfMsg ∧
    (∀ pend2 f i m, f.id = some i →
        (handleFrame pend2 true (InboundMsg.parsed f)).2 ≠
          Dispatch.notification m) := by
  constructor
  · induction msgs generalizing pending with
    | nil => rfl
    | cons msg msgs ih =>
        cases msg with
        | unparseable =>
            simp [dispatchRun, handleFrame, notifMethods_dropped, notifOfMsg,
              List.filterMap_cons, ih]
        | parsed f =>
            obtain ⟨fid, ferr, fm, fp⟩ := f
            cases fid with
            | some i =>
                by_cases hi : i ∈ pending <;>
                  simp [dispatchRun, handleFrame, hi, notifMethods_settled,
                    notifMethods_ignored, notifOfMsg, List.filterMap_cons, ih]
            | none =>
                cases fm with
                | some m =>
                    cases fp <;>
                      simp [dispatchRun, handleFrame, notifMethods_dropped,
                        notifMethods_notification, notifOfMsg,
                        List.filterMap_cons, ih]
                | none =>
                    simp [dispatchRun, handleFrame, notifMethods_dropped,
                      notifOfMsg, List.filterMap_cons, ih]
  · intro pend2 f i m hid
    obtain ⟨fid, ferr, fm, fp⟩ := f
    cases hid
    by_cases hi : i ∈ pend2 <;> simp [handleFrame, hi]

/-- Witness for the amended C9: a response frame, a notification frame and
an unparseable frame dispatch to exactly one notification, and a frame with
a correlation id is not dispatched as a notification. -/
theorem C9_amended_witness :
    notifMethods (dispatchRun [4] true
        [InboundMsg.parsed ⟨some 4, false, some "X", true⟩,
          InboundMsg.parsed ⟨none, false, some "Player.OnPause", true⟩,
          InboundMsg.unparseable]).2 = ["Player.OnPause"] ∧
    (handleFrame [] true (InboundMsg.parsed ⟨some 7, false, some "Y", true⟩)).2 ≠
      Dispatch.notification "Y" :=
  ⟨by
    have h := (C9_amended [4]
      [InboundMsg.parsed ⟨some 4, false, some "X", true⟩,
        InboundMsg.parsed ⟨none, false, some "Player.OnPause", true⟩,
        InboundMsg.unparseable]).1
    simpa using h,
    (C9_amended [] []).2 [] ⟨some 7, false, some "Y", true⟩ 7 "Y" rfl⟩

/-! ## Claim theorems: terminal outcome exactly once (C5) -/

theorem sessStep_not_ended (st : SessState) (i : SessInput)
    (h : st.endedOrStopped = false) :
    ((sessStep st i).state.endedOrStopped = false ∧
        (sessStep st i).events.countP isTerminalEv = 0) ∨
    ((sessStep st i).state.endedOrStopped = true ∧
        (sessStep st i).events.countP isTerminalEv = 1) := by
  cases i with
  | poll o =>
      cases o with
      | success props => left; simp [sessStep, pollTick, h, isTerminalEv]
      | failure => right; simp [sessStep, pollTick, failSess, cleanup, h, isTerminalEv]
  | notif n =>
      cases n with
      | avstart => left; simp [sessStep, onNotifHandler, h, isTerminalEv]
      | pause => left; simp [sessStep, onNotifHandler, h, isTerminalEv]
      | resume => left; simp [sessStep, onNotifHandler, h, isTerminalEv]
      | seekN => left; simp [sessStep, onNotifHandler, h, isTerminalEv]
      | other m => left; simp [sessStep, onNotifHandler, h, isTerminalEv]
      | onStop endFlag fetch =>
          right
          cases hp : st.playerId with
          | none =>
              simp [sessStep, onNotifHandler, h, getFinalPropsSafe, cleanup, hp,
                isTerminalEv]
          | some pid =>
              cases fetch <;>
                simp [sessStep, onNotifHandler, h, getFinalPropsSafe, cleanup, hp,
                  isTerminalEv]
  | wsClosed => right; simp [sessStep, failSess, cleanup, h, isTerminalEv]
  | launchFailed => right; simp [sessStep, failSess, cleanup, h, isTerminalEv]
  | badArgs => right; simp [sessStep, failSess, cleanup, h, isTerminalEv]
  | connectFailed => right; simp [sessStep, failSess, cleanup, h, isTerminalEv]
  | playFailed => right; simp [sessStep, failSess, cleanup, h, isTerminalEv]

theorem sessRun_terminal_count (st : SessState) (is : List SessInput)
    (h : st.endedOrStopped = false) :
    (sessRun st is).events.countP isTerminalEv =
      (if (sessRun st is).state.endedOrStopped then 1 else 0) := by
  induction is generalizing st with
  | nil => simp [sessRun, h]
  | cons i is ih =>
      rcases sessStep_not_ended st i h with ⟨h1, h2⟩ | ⟨h1, h2⟩
      · simp [sessRun, List.countP_append, h2, ih _ h1]
      · have h3 := sessRun_ended (sessStep st i).state is h1
        simp [sessRun, List.countP_append, h2, h3.1, h3.2]

/-- Claim C5: a session reaches at most one terminal outcome and emits it
exactly once — the count of terminal (`stopped` or `error`) events over any
serialized interleaving of poll ticks, notifications, transport closes and
staged failures equals 1 exactly when the session has ended, never exceeds
1, and once a prefix has reached the terminal flag, the session stays
terminal and the remaining activations emit no events at all. -/
theorem C5_terminal_exactly_once (inputs : List SessInput) :
    (sessRun freshSession inputs).events.countP isTerminalEv ≤ 1 ∧
    (sessRun freshSession inputs).events.countP isTerminalEv =
      (if (sessRun freshSession inputs).state.endedOrStopped then 1 else 0) ∧
    (∀ pre suf, inputs = pre ++ suf →
        (sessRun freshSession pre).state.endedOrStopped = true →
        (sessRun freshSession inputs).state.endedOrStopped = true ∧
        (sessRun (sessRun freshSession pre).state suf).events = []) := by
  have hcount := sessRun_terminal_count freshSession inputs rfl
  refine ⟨?_, hcount, ?_⟩
  · rw [hcount]; split <;> omega
  · intro pre suf hsplit hpre
    have hsuf := sessRun_ended (sessRun freshSession pre).state suf hpre
    constructor
    · rw [hsplit, sessRun_append]
      exact hsuf.2
    · exact hsuf.1

/-- Witness for C5: a bad-arguments failure followed by a transport close
emits exactly one terminal event and nothing after it. -/
theorem C5_terminal_exactly_once_witness :
    (sessRun freshSession [SessInput.badArgs, SessInput.wsClosed]).events.countP
        isTerminalEv ≤ 1 ∧
    (sessRun (sessRun freshSession [SessInput.badArgs]).state
        [SessInput.wsClosed]).events = [] :=
  ⟨(C5_terminal_exactly_once [SessInput.badArgs, SessInput.wsClosed]).1,
    ((C5_terminal_exactly_once [SessInput.badArgs, SessInput.wsClosed]).2.2
      [SessInput.badArgs] [SessInput.wsClosed] rfl (by decide)).2⟩

/-! ## Claim theorems: stop notification mid-poll (C6) -/

/-- Claim C6: a `Player.OnStop` notification whose payload carries
`data.end = true`, arriving while progress polling is running, stops the
polling, reads the final playback properties exactly once, closes the
transport, and emits exactly one `stopped` event with `end = true` carrying
the final position and duration (the fresh read on success, the last known
values when the final read fails). -/
theorem C6_stop_mid_poll (st : SessState) (pid : Nat) (fetch : Option KodiProps)
    (h1 : st.endedOrStopped = false) (_h2 : st.pollTimer = true)
    (h3 : st.playerId = some pid) :
    (sessStep st (SessInput.notif (KodiNotif.onStop true fetch))).state.endedOrStopped
        = true ∧
    (sessStep st (SessInput.notif (KodiNotif.onStop true fetch))).state.pollTimer
        = false ∧
    (sessStep st (SessInput.notif (KodiNotif.onStop true fetch))).state.wsOpen
        = false ∧
    (sessStep st (SessInput.notif (KodiNotif.onStop true fetch))).reads = 1 ∧
    (∀ props, fetch = some props →
        (sessStep st (SessInput.notif (KodiNotif.onStop true fetch))).events =
          [SessionEvent.stopped (toSecondsFromKodiTime props.time)
            (toSecondsFromKodiTime props.totaltime) true]) ∧
    (fetch = none →
        (sessStep st (SessInput.notif (KodiNotif.onStop true fetch))).events =
          [SessionEvent.stopped st.lastKnownPos st.lastKnownDur true]) := by
  cases fetch with
  | none =>
      refine ⟨?_, ?_, ?_, ?_, ?_, ?_⟩ <;>
        simp [sessStep, onNotifHandler, getFinalPropsSafe, cleanup, h1, h3]
  | some props =>
      refine ⟨?_, ?_, ?_, ?_, ?_, ?_⟩ <;>
        simp [sessStep, onNotifHandler, getFinalPropsSafe, cleanup, h1, h3]

/-- Witness for C6: concrete playing state, `end = true`, failing final
read. -/
theorem C6_stop_mid_poll_witness :
    (sessStep (playingSession 3)
        (SessInput.notif (KodiNotif.onStop true none))).events =
      [SessionEvent.stopped 0 0 true] ∧
    (sessStep (playingSession 3)
        (SessInput.notif (KodiNotif.onStop true none))).reads = 1 :=
  ⟨(C6_stop_mid_poll (playingSession 3) 3 none rfl rfl rfl).2.2.2.2.2 rfl,
    (C6_stop_mid_poll (playingSession 3) 3 none rfl rfl rfl).2.2.2.1⟩

/-! ## Claim theorems: pending requests settle exactly once (C4) -/

theorem wsRun_append (st : WsClientState) (xs ys : List WsEvent) :
    wsRun st (xs ++ ys) = wsRun (wsRun st xs) ys := by
  induction xs generalizing st with
  | nil => rfl
  | cons x xs ih => simp [wsRun, ih]

theorem countP_key_of_not_mem (id : Nat) (l : List Nat) (h : id ∉ l) :
    l.countP (fun j => j = id) = 0 := by
  rw [List.countP_eq_zero]
  intro a ha
  simp only [decide_eq_true_eq]
  exact fun hval => h (hval ▸ ha)

theorem countP_key_of_nodup_mem (id : Nat) (l : List Nat) (hnd : l.Nodup)
    (h : id ∈ l) : l.countP (fun j => j = id) = 1 := by
  induction l with
  | nil => cases h
  | cons a l ih =>
      rcases List.mem_cons.mp h with rfl | hmem
      · rw [List.countP_cons_of_pos _ _ (by simp),
          countP_key_of_not_mem id l (List.Nodup.not_mem hnd)]
      · have hne : a ≠ id := fun he => (List.Nodup.not_mem hnd) (he ▸ hmem)
        rw [List.countP_cons_of_neg _ _ (by simp [hne])]
        exact ih (List.Nodup.of_cons hnd) hmem

theorem countP_fst_map_pair (id : Nat) (k : SettleKind) (l : List Nat) :
    (l.map (fun j => (j, k))).countP (fun s => s.1 = id) =
      l.countP (fun j => j = id) := by
  induction l with
  | nil => rfl
  | cons a l ih => by_cases ha : a = id <;> simp [ha, ih]

theorem wsInit_inv : WsInv wsInit := by
  refine ⟨rfl, List.nodup_nil, ?_, ?_⟩ <;> simp [wsInit, settleCount]

theorem wsStep_inv (st : WsClientState) (e : WsEvent) (h : WsInv st) :
    WsInv (wsStep st e) := by
  obtain ⟨ht, hnd, hlt, hfresh⟩ := h
  cases e with
  | send ok =>
      cases ok with
      | true =>
          refine ⟨by simp [wsStep, ht], ?_, ?_, ?_⟩
          · show (st.pending ++ [st.nextId]).Nodup
            rw [List.nodup_append]
            refine ⟨hnd, List.nodup_singleton _, ?_⟩
            intro a ha hb
            rw [List.mem_singleton] at hb
            exact absurd (hlt a ha) (by omega)
          · intro i hi
            show i < st.nextId + 1
            rcases List.mem_append.mp hi with hi | hi
            · exact Nat.lt_trans (hlt i hi) (Nat.lt_succ_self _)
            · rw [List.mem_singleton] at hi; omega
          · intro i hi
            exact hfresh i (by exact Nat.le_of_succ_le hi)
      | false =>
          have hstep : wsStep st (WsEvent.send false) =
              { st with
                  nextId := st.nextId + 1
                  settles := st.settles ++ [(st.nextId, SettleKind.sendError)] } := rfl
          rw [hstep]
          refine ⟨ht, hnd, fun i hi => Nat.lt_trans (hlt i hi) (Nat.lt_succ_self _), ?_⟩
          intro i hi
          have hi2 : st.nextId + 1 ≤ i := hi
          have h0 := hfresh i (by omega)
          have hne : st.nextId ≠ i := by omega
          simp only [settleCount] at h0 ⊢
          rw [List.countP_append, h0, List.countP_singleton]
          simp [hne]
  | response j isErr =>
      by_cases hj : j ∈ st.pending
      · have hstep : wsStep st (WsEvent.response j isErr) =
            { st with
                pending := st.pending.erase j
                timers := st.timers.erase j
                settles := st.settles ++
                  [(j, if isErr then SettleKind.remoteError else SettleKind.resolved)] } := by
          simp [wsStep, hj]
        rw [hstep]
        refine ⟨by simp [ht], List.Nodup.erase j hnd, ?_, ?_⟩
        · intro i hi
          exact hlt i (List.mem_of_mem_erase hi)
        · intro i hi
          have h0 := hfresh i hi
          have hne : j ≠ i := Nat.ne_of_lt (Nat.lt_of_lt_of_le (hlt j hj) hi)
          simp only [settleCount] at h0 ⊢
          rw [List.countP_append, h0, List.countP_singleton]
          simp [hne]
      · have hstep : wsStep st (WsEvent.response j isErr) = st := by
          simp [wsStep, hj]
        rw [hstep]
        exact ⟨ht, hnd, hlt, hfresh⟩
  | timerFire j =>
      by_cases hj : j ∈ st.timers
      · have hjp : j ∈ st.pending := ht ▸ hj
        have hstep : wsStep st (WsEvent.timerFire j) =
            { st with
                timers := st.timers.erase j
                pending := st.pending.erase j
                settles := st.settles ++ [(j, SettleKind.localTimeout)] } := by
          simp [wsStep, hj]
        rw [hstep]
        refine ⟨by simp [ht], List.Nodup.erase j hnd, ?_, ?_⟩
        · intro i hi
          exact hlt i (List.mem_of_mem_erase hi)
        · intro i hi
          have h0 := hfresh i hi
          have hne : j ≠ i := Nat.ne_of_lt (Nat.lt_of_lt_of_le (hlt j hjp) hi)
          simp only [settleCount] at h0 ⊢
          rw [List.countP_append, h0, List.countP_singleton]
          simp [hne]
      · have hstep : wsStep st (WsEvent.timerFire j) = st := by
          simp [wsStep, hj]
        rw [hstep]
        exact ⟨ht, hnd, hlt, hfresh⟩
  | closeEvt =>
      have hstep : wsStep st WsEvent.closeEvt =
          { st with
              timers := st.timers.filter (fun i => i ∉ st.pending)
              settles := st.settles ++
                st.pending.map (fun i => (i, SettleKind.closedError))
              pending := [] } := rfl
      rw [hstep]
      refine ⟨?_, List.nodup_nil, ?_, ?_⟩
      · show st.timers.filter (fun i => i ∉ st.pending) = ([] : List Nat)
        rw [ht, List.filter_eq_nil_iff]
        intro a ha
        simp [ha]
      · intro i hi
        cases hi
      · intro i hi
        have hi2 : st.nextId ≤ i := hi
        have h0 := hfresh i hi2
        have hnm : i ∉ st.pending := fun hmem => absurd (hlt i hmem) (by omega)
        simp only [settleCount] at h0 ⊢
        rw [List.countP_append, countP_fst_map_pair, countP_key_of_not_mem i _ hnm, h0]

theorem wsStep_track (st : WsClientState) (e : WsEvent) (id : Nat)
    (hinv : WsInv st) (h : TrackInv id st) : TrackInv id (wsStep st e) := by
  obtain ⟨ht, hnd, hlt, hfresh⟩ := hinv
  obtain ⟨hid, hcase⟩ := h
  cases e with
  | send ok =>
      cases ok with
      | true =>
          refine ⟨Nat.lt_trans hid (Nat.lt_succ_self _), ?_⟩
          rcases hcase with ⟨hmem, hcnt⟩ | ⟨hnmem, hcnt⟩
          · exact Or.inl ⟨List.mem_append_left _ hmem, hcnt⟩
          · refine Or.inr ⟨?_, hcnt⟩
            intro hmem
            rcases List.mem_append.mp hmem with hm | hm
            · exact hnmem hm
            · rw [List.mem_singleton] at hm; omega
      | false =>
          have hstep : wsStep st (WsEvent.send false) =
              { st with
                  nextId := st.nextId + 1
                  settles := st.settles ++ [(st.nextId, SettleKind.sendError)] } := rfl
          rw [hstep]
          refine ⟨Nat.lt_trans hid (Nat.lt_succ_self _), ?_⟩
          have hne : st.nextId ≠ id := by omega
          rcases hcase with ⟨hmem, hcnt⟩ | ⟨hnmem, hcnt⟩
          · refine Or.inl ⟨hmem, ?_⟩
            simp only [settleCount] at hcnt ⊢
            rw [List.countP_append, hcnt, List.countP_singleton]
            simp [hne]
          · refine Or.inr ⟨hnmem, ?_⟩
            simp only [settleCount] at hcnt ⊢
            rw [List.countP_append, hcnt, List.countP_singleton]
            simp [hne]
  | response j isErr =>
      by_cases hj : j ∈ st.pending
      · have hstep : wsStep st (WsEvent.response j isErr) =
            { st with
                pending := st.pending.erase j
                timers := st.timers.erase j
                settles := st.settles ++
                  [(j, if isErr then SettleKind.remoteError else SettleKind.resolved)] } := by
          simp [wsStep, hj]
        rw [hstep]
        refine ⟨hid, ?_⟩
        by_cases hji : j = id
        · subst hji
          rcases hcase with ⟨hmem, hcnt⟩ | ⟨hnmem, hcnt⟩
          · refine Or.inr ⟨List.Nodup.not_mem_erase hnd, ?_⟩
            simp only [settleCount] at hcnt ⊢
            rw [List.countP_append, hcnt, List.countP_singleton]
            simp
          · exact absurd hj hnmem
        · rcases hcase with ⟨hmem, hcnt⟩ | ⟨hnmem, hcnt⟩
          · refine Or.inl ⟨(List.Nodup.mem_erase_iff hnd).mpr ⟨Ne.symm hji, hmem⟩, ?_⟩
            simp only [settleCount] at hcnt ⊢
            rw [List.countP_append, hcnt, List.countP_singleton]
            simp [hji]
          · refine Or.inr ⟨fun hmem => hnmem (List.mem_of_mem_erase hmem), ?_⟩
            simp only [settleCount] at hcnt ⊢
            rw [List.countP_append, hcnt, List.countP_singleton]
            simp [hji]
      · have hstep : wsStep st (WsEvent.response j isErr) = st := by
          simp [wsStep, hj]
        rw [hstep]
        exact ⟨hid, hcase⟩
  | timerFire j =>
      by_cases hj : j ∈ st.timers
      · have hstep : wsStep st (WsEvent.timerFire j) =
            { st with
                timers := st.timers.erase j
                pending := st.pending.erase j
                settles := st.settles ++ [(j, SettleKind.localTimeout)] } := by
          simp [wsStep, hj]
        rw [hstep]
        refine ⟨hid, ?_⟩
        by_cases hji : j = id
        · subst hji
          rcases hcase with ⟨hmem, hcnt⟩ | ⟨hnmem, hcnt⟩
          · refine Or.inr ⟨List.Nodup.not_mem_erase hnd, ?_⟩
            simp only [settleCount] at hcnt ⊢
            rw [List.countP_append, hcnt, List.countP_singleton]
            simp
          · exact absurd (ht ▸ hj) hnmem
        · rcases hcase with ⟨hmem, hcnt⟩ | ⟨hnmem, hcnt⟩
          · refine Or.inl ⟨(List.Nodup.mem_erase_iff hnd).mpr ⟨Ne.symm hji, hmem⟩, ?_⟩
            simp only [settleCount] at hcnt ⊢
            rw [List.countP_append, hcnt, List.countP_singleton]
            simp [hji]
          · refine Or.inr ⟨fun hmem => hnmem (List.mem_of_mem_erase hmem), ?_⟩
            simp only [settleCount] at hcnt ⊢
            rw [List.countP_append, hcnt, List.countP_singleton]
            simp [hji]
      · have hstep : wsStep st (WsEvent.timerFire j) = st := by
          simp [wsStep, hj]
        rw [hstep]
        exact ⟨hid, hcase⟩
  | closeEvt =>
      have hstep : wsStep st WsEvent.closeEvt =
          { st with
              timers := st.timers.filter (fun i => i ∉ st.pending)
              settles := st.settles ++
                st.pending.map (fun i => (i, SettleKind.closedError))
              pending := [] } := rfl
      rw [hstep]
      refine ⟨hid, Or.inr ⟨List.not_mem_nil id, ?_⟩⟩
      rcases hcase with ⟨hmem, hcnt⟩ | ⟨hnmem, hcnt⟩
      · simp only [settleCount] at hcnt ⊢
        rw [List.countP_append, countP_fst_map_pair,
          countP_key_of_nodup_mem id _ hnd hmem, hcnt]
      · simp only [settleCount] at hcnt ⊢
        rw [List.countP_append, countP_fst_map_pair,
          countP_key_of_not_mem id _ hnmem, hcnt]

theorem wsRun_inv (st : WsClientState) (es : List WsEvent) (h : WsInv st) :
    WsInv (wsRun st es) := by
  induction es generalizing st with
  | nil => exact h
  | cons e es ih => exact ih _ (wsStep_inv st e h)

theorem wsRun_track (st : WsClientState) (es : List WsEvent) (id : Nat)
    (hinv : WsInv st) (h : TrackInv id st) : TrackInv id (wsRun st es) := by
  induction es generalizing st with
  | nil => exact h
  | cons e es ih => exact ih _ (wsStep_inv st e hinv) (wsStep_track st e id hinv h)

/-- Claim C4: a request sent on a live transport settles exactly once.  For
any reachable client state, sending one request and then processing any
interleaving of responses, deadline expiries, closes and further sends
invokes the request's continuation at most once at every point, and exactly
once by the time its deadline timer has fired (the deadline timer
guarantees eventual settlement; an entry is removed on matching response or
deadline expiry, never both). -/
theorem C4_request_settles_exactly_once (pre evs : List WsEvent) :
    settleCount (wsRun wsInit pre).nextId
        (wsRun wsInit
          (pre ++ WsEvent.send true ::
            (evs ++ [WsEvent.timerFire (wsRun wsInit pre).nextId]))) = 1 ∧
    (∀ mid rest,
        WsEvent.send true ::
            (evs ++ [WsEvent.timerFire (wsRun wsInit pre).nextId]) = mid ++ rest →
        settleCount (wsRun wsInit pre).nextId (wsRun (wsRun wsInit pre) mid) ≤ 1) := by
  have hinv0 : WsInv (wsRun wsInit pre) := wsRun_inv wsInit pre wsInit_inv
  set st0 := wsRun wsInit pre with hst0
  set id := st0.nextId with hid
  have hinv1 : WsInv (wsStep st0 (WsEvent.send true)) := wsStep_inv st0 _ hinv0
  have htrack1 : TrackInv id (wsStep st0 (WsEvent.send true)) := by
    refine ⟨Nat.lt_succ_self _, Or.inl ⟨?_, ?_⟩⟩
    · exact List.mem_append_right _ (List.mem_singleton.mpr rfl)
    · exact hinv0.2.2.2 id (le_refl id)
  constructor
  · have hsplit : pre ++ WsEvent.send true :: (evs ++ [WsEvent.timerFire id]) =
        (pre ++ [WsEvent.send true]) ++ (evs ++ [WsEvent.timerFire id]) := by
      simp
    rw [hsplit, wsRun_append, wsRun_append, wsRun_append, ← hst0]
    have hW : wsRun st0 [WsEvent.send true] = wsStep st0 (WsEvent.send true) := rfl
    rw [hW]
    set stM := wsRun (wsStep st0 (WsEvent.send true)) evs with hstM
    have hinvM : WsInv stM := wsRun_inv _ evs hinv1
    have htrackM : TrackInv id stM := wsRun_track _ evs id hinv1 htrack1
    obtain ⟨htM, hndM, hltM, hfM⟩ := hinvM
    obtain ⟨hidM, hcM⟩ := htrackM
    rcases hcM with ⟨hmem, hcnt⟩ | ⟨hnmem, hcnt⟩
    · have hjt : id ∈ stM.timers := htM ▸ hmem
      have hstepF : wsRun stM [WsEvent.timerFire id] =
          { stM with
              timers := stM.timers.erase id
              pending := stM.pending.erase id
              settles := stM.settles ++ [(id, SettleKind.localTimeout)] } := by
        show wsStep stM (WsEvent.timerFire id) = _
        simp [wsStep, hjt]
      rw [hstepF]
      simp only [settleCount] at hcnt ⊢
      rw [List.countP_append, hcnt, List.countP_singleton]
      simp
    · have hjt : id ∉ stM.timers := htM ▸ hnmem
      have hstepF : wsRun stM [WsEvent.timerFire id] = stM := by
        show wsStep stM (WsEvent.timerFire id) = _
        simp [wsStep, hjt]
      rw [hstepF]
      exact hcnt
  · intro mid rest hsplit2
    cases mid with
    | nil =>
        have h0 : settleCount id st0 = 0 := hinv0.2.2.2 id (le_refl id)
        simp [wsRun, h0]
    | cons m mid2 =>
        simp only [List.cons_append] at hsplit2
        have hm : m = WsEvent.send true := by
          injection hsplit2 with h1 h2
          exact h1.symm
        subst hm
        have hW : wsRun st0 (WsEvent.send true :: mid2) =
            wsRun (wsStep st0 (WsEvent.send true)) mid2 := rfl
        rw [hW]
        have htr := wsRun_track _ mid2 id hinv1 htrack1
        rcases htr.2 with ⟨_, hcnt⟩ | ⟨_, hcnt⟩ <;> omega

/-- Witness for C4 at a concrete trace: one request, its matching response,
then the (disarmed) deadline — the continuation is invoked exactly once. -/
theorem C4_request_settles_exactly_once_witness :
    settleCount 1 (wsRun wsInit
        ([] ++ WsEvent.send true ::
          ([WsEvent.response 1 false] ++ [WsEvent.timerFire 1]))) = 1 ∧
    settleCount 1 (wsRun (wsRun wsInit []) [WsEvent.send true]) ≤ 1 :=
  ⟨(C4_request_settles_exactly_once [] [WsEvent.response 1 false]).1,
    (C4_request_settles_exactly_once [] [WsEvent.response 1 false]).2
      [WsEvent.send true] ([WsEvent.response 1 false] ++ [WsEvent.timerFire 1]) rfl⟩

/-! ## Claim theorems: session preemption (C2) -/

theorem getJob_setJob_self (sid : Nat) (j : HJob) (jobs : List (Nat × HJob)) :
    getJob sid (setJob sid j jobs) = some j := by
  induction jobs with
  | nil => simp [getJob, setJob]
  | cons hd tl ih =>
      obtain ⟨s0, j0⟩ := hd
      by_cases h : s0 = sid <;> simp [getJob, setJob, h, ih]

theorem getJob_setJob_ne (s sid : Nat) (j : HJob) (jobs : List (Nat × HJob))
    (h : s ≠ sid) : getJob s (setJob sid j jobs) = getJob s jobs := by
  induction jobs with
  | nil => simp [getJob, setJob, Ne.symm h]
  | cons hd tl ih =>
      obtain ⟨s0, j0⟩ := hd
      by_cases h0 : s0 = sid
      · subst h0
        simp [getJob, setJob, Ne.symm h]
      · by_cases h1 : s0 = s <;> simp [getJob, setJob, h0, h1, h, ih]

theorem loopEnter_cancelled (st : HState) (sid : Nat) (job : HJob)
    (hjob : getJob sid st.jobs = some job) (hcan : job.cancelled = true) :
    hStep st (HCmd.loopEnter sid) = st := by
  simp [hStep, hjob, hcan]

theorem loopBody_not_inBody (st : HState) (sid : Nat) (job : HJob)
    (hjob : getJob sid st.jobs = some job) (hbody : job.inBody = false) :
    hStep st (HCmd.loopBody sid) = st := by
  simp [hStep, hjob, hbody]

theorem finishCheck_finished (st : HState) (sid : Nat) (job : HJob)
    (hjob : getJob sid st.jobs = some job) (hfin : job.finished = true) :
    hStep st (HCmd.finishCheck sid) = st := by
  simp [hStep, hjob, hfin]

theorem finishCheck_cancelled (st : HState) (sid : Nat) (job : HJob)
    (hjob : getJob sid st.jobs = some job) (hcan : job.cancelled = true)
    (hbody : job.inBody = false) (hfin : job.finished = false) :
    hStep st (HCmd.finishCheck sid) =
      { currentJob := if st.currentJob = some sid then none else st.currentJob
        jobs := setJob sid { job with finished := true } st.jobs
        log := st.log ++
          if job.subscribed then [HServEvent.finalCancelled sid] else [] } := by
  simp [hStep, hjob, hcan, hbody, hfin]

theorem loopEnter_frame (st : HState) (s sid2 : Nat) (h : s ≠ sid2) :
    (hStep st (HCmd.loopEnter sid2)).log = st.log ∧
    getJob s (hStep st (HCmd.loopEnter sid2)).jobs = getJob s st.jobs := by
  cases hj : getJob sid2 st.jobs with
  | none => simp [hStep, hj]
  | some job =>
      by_cases hg : job.finished = true ∨ job.inBody = true ∨ job.cancelled = true
      · simp [hStep, hj, hg]
      · simp only [hStep, hj]
        rw [if_neg hg]
        exact ⟨rfl, getJob_setJob_ne s sid2 _ _ h⟩

theorem loopBody_frame (st : HState) (s sid2 : Nat) (h : s ≠ sid2) :
    ((hStep st (HCmd.loopBody sid2)).log = st.log ∨
      (hStep st (HCmd.loopBody sid2)).log =
        st.log ++ [HServEvent.kodiCall sid2]) ∧
    getJob s (hStep st (HCmd.loopBody sid2)).jobs = getJob s st.jobs := by
  cases hj : getJob sid2 st.jobs with
  | none => simp [hStep, hj]
  | some job =>
      by_cases hb : job.inBody = true
      · simp only [hStep, hj]
        rw [if_pos hb]
        exact ⟨Or.inr rfl, getJob_setJob_ne s sid2 _ _ h⟩
      · simp only [hStep, hj]
        rw [if_neg hb]
        exact ⟨Or.inl rfl, rfl⟩

theorem finishCheck_frame (st : HState) (s sid2 : Nat) (h : s ≠ sid2) :
    (∃ ext, (hStep st (HCmd.finishCheck sid2)).log = st.log ++ ext ∧
      ∀ e ∈ ext, e = HServEvent.finalCancelled sid2 ∨
        e = HServEvent.finalDone sid2) ∧
    getJob s (hStep st (HCmd.finishCheck sid2)).jobs = getJob s st.jobs := by
  cases hj : getJob sid2 st.jobs with
  | none =>
      refine ⟨⟨[], by simp [hStep, hj], by simp⟩, by simp [hStep, hj]⟩
  | some job =>
      by_cases hg : job.finished = true ∨ job.inBody = true
      · refine ⟨⟨[], ?_, by simp⟩, ?_⟩
        · simp only [hStep, hj]
          rw [if_pos hg]
          simp
        · simp only [hStep, hj]
          rw [if_pos hg]
      · refine ⟨⟨(if job.cancelled then
            (if job.subscribed then [HServEvent.finalCancelled sid2] else [])
            else [HServEvent.finalDone sid2]), ?_, ?_⟩, ?_⟩
        · simp only [hStep, hj]
          rw [if_neg hg]
        · intro e he
          by_cases hc : job.cancelled = true <;>
            by_cases hs : job.subscribed = true <;>
              simp [hc, hs] at he <;> simp [he]
        · simp only [hStep, hj]
          rw [if_neg hg]
          exact getJob_setJob_ne s sid2 _ _ h

/-- Counterexample to claim C2: in the HTTP variant, job 0 is preempted by
job 1 while its worker loop is inside a body (sleep + HTTP request already
past the cancellation check).  After job 1 is installed, job 0 still issues
a Kodi network call, and later responds a `FINAL CANCELLED` frame to its
subscriber — so the old session's resources are not released before the new
session proceeds, and the old session does emit an event after preemption.
(The WebSocket variant registers no session at all, so it performs no
preemption either.) -/
theorem C2_counterexample :
    respondsOf 0 (logAfter (HServEvent.registered 1)
        (hRun hInit
          [HCmd.register 0 true, HCmd.loopEnter 0, HCmd.register 1 true,
            HCmd.loopBody 0, HCmd.loopEnter 1, HCmd.loopBody 1,
            HCmd.finishCheck 0]).log) = [HServEvent.finalCancelled 0] ∧
    HServEvent.kodiCall 0 ∈ logAfter (HServEvent.registered 1)
        (hRun hInit
          [HCmd.register 0 true, HCmd.loopEnter 0, HCmd.register 1 true,
            HCmd.loopBody 0, HCmd.loopEnter 1, HCmd.loopBody 1,
            HCmd.finishCheck 0]).log := by
  decide

/-- Claim C2 as amended: preemption in the HTTP variant is cooperative
flag-setting only.  Registering a new job sets the previous current job's
`cancelled` flag before installing the new job; and a job that is cancelled
and past its loop body starts no further Kodi calls and responds at most
one further frame — a single `FINAL CANCELLED` (none once it has finished,
and never a `STARTED` or a success final) — which is emitted after
preemption, not before.  The WebSocket variant performs no preemption at
all. -/
theorem C2_amended :
    (∀ (st2 : HState) (sid2 j : Nat) (sub : Bool) (jb : HJob),
        st2.currentJob = some j → getJob j st2.jobs = some jb → j ≠ sid2 →
        getJob j (hStep st2 (HCmd.register sid2 sub)).jobs =
          some { jb with cancelled := true }) ∧
    (∀ (cs : List HCmd) (st : HState) (sid : Nat) (job : HJob),
        getJob sid st.jobs = some job → job.cancelled = true →
        job.inBody = false → (∀ sub, HCmd.register sid sub ∉ cs) →
        ∃ ext, (hRun st cs).log = st.log ++ ext ∧
          HServEvent.kodiCall sid ∉ ext ∧
          ext.countP (fun e => e = HServEvent.finalCancelled sid) ≤
            (if job.finished then 0 else 1) ∧
          HServEvent.finalDone sid ∉ ext ∧
          HServEvent.started sid ∉ ext) := by
  constructor
  · intro st2 sid2 j sub jb hcur hjob hne
    simp only [hStep]
    rw [getJob_setJob_ne j sid2 _ _ hne]
    simp only [cancelCurrent, hcur, hjob]
    exact getJob_setJob_self j _ _
  · intro cs
    induction cs with
    | nil =>
        intro st sid job hjob hcan hbody hnreg
        exact ⟨[], by simp [hRun], by simp, by simp, by simp, by simp⟩
    | cons c cs ih =>
        intro st sid job hjob hcan hbody hnreg
        have hnreg2 : ∀ sub, HCmd.register sid sub ∉ cs := fun sub hmem =>
          hnreg sub (List.mem_cons_of_mem _ hmem)
        have hrun : hRun st (c :: cs) = hRun (hStep st c) cs := rfl
        cases c with
        | register sid2 sub2 =>
            have hne : sid2 ≠ sid := by
              intro he
              subst he
              exact hnreg sub2 (List.mem_cons_self _ _)
            have hlog : (hStep st (HCmd.register sid2 sub2)).log =
                st.log ++ [HServEvent.registered sid2, HServEvent.started sid2] :=
              rfl
            have hjob2 : ∃ job2 : HJob,
                getJob sid (hStep st (HCmd.register sid2 sub2)).jobs = some job2 ∧
                job2.cancelled = true ∧ job2.inBody = false ∧
                job2.finished = job.finished := by
              simp only [hStep]
              rw [getJob_setJob_ne sid sid2 _ _ (Ne.symm hne)]
              cases hcur : st.currentJob with
              | none =>
                  refine ⟨job, ?_, hcan, hbody, rfl⟩
                  simp [cancelCurrent, hcur, hjob]
              | some cur =>
                  by_cases hc : cur = sid
                  · subst hc
                    refine ⟨{ job with cancelled := true }, ?_, rfl, hbody, rfl⟩
                    simp only [cancelCurrent, hcur, hjob]
                    exact getJob_setJob_self cur _ _
                  · refine ⟨job, ?_, hcan, hbody, rfl⟩
                    simp only [cancelCurrent, hcur]
                    cases hj2 : getJob cur st.jobs with
                    | none => exact hjob
                    | some jc =>
                        rw [getJob_setJob_ne sid cur _ _ (fun he => hc he.symm)]
                        exact hjob
            obtain ⟨job2, hj2, hc2, hb2, hf2⟩ := hjob2
            obtain ⟨ext, hext, hk, hcount, hfd, hstarted⟩ :=
              ih (hStep st (HCmd.register sid2 sub2)) sid job2 hj2 hc2 hb2 hnreg2
            refine ⟨[HServEvent.registered sid2, HServEvent.started sid2] ++ ext,
              ?_, ?_, ?_, ?_, ?_⟩
            · rw [hrun, hext, hlog, List.append_assoc]
            · intro hmem
              rcases List.mem_append.mp hmem with hm | hm
              · simp at hm
              · exact hk hm
            · rw [List.countP_append]
              have h1 : ([HServEvent.registered sid2,
                  HServEvent.started sid2]).countP
                    (fun e => e = HServEvent.finalCancelled sid) = 0 := by
                simp
              rw [h1, ← hf2]
              simpa using hcount
            · intro hmem
              rcases List.mem_append.mp hmem with hm | hm
              · simp at hm
              · exact hfd hm
            · intro hmem
              rcases List.mem_append.mp hmem with hm | hm
              · simp at hm
                exact hne hm.symm
              · exact hstarted hm
        | loopEnter sid2 =>
            by_cases hs : sid2 = sid
            · subst hs
              have hss : hStep st (HCmd.loopEnter sid2) = st :=
                loopEnter_cancelled st sid2 job hjob hcan
              rw [hrun, hss]
              exact ih st sid2 job hjob hcan hbody hnreg2
            · have hfr := loopEnter_frame st sid sid2 (fun he => hs he.symm)
              have hj3 : getJob sid (hStep st (HCmd.loopEnter sid2)).jobs =
                  some job := by
                rw [hfr.2]
                exact hjob
              obtain ⟨ext, hext, hk, hcount, hfd, hstarted⟩ :=
                ih (hStep st (HCmd.loopEnter sid2)) sid job hj3 hcan hbody hnreg2
              refine ⟨ext, ?_, hk, hcount, hfd, hstarted⟩
              rw [hrun, hext, hfr.1]
        | loopBody sid2 =>
            by_cases hs : sid2 = sid
            · subst hs
              have hss : hStep st (HCmd.loopBody sid2) = st :=
                loopBody_not_inBody st sid2 job hjob hbody
              rw [hrun, hss]
              exact ih st sid2 job hjob hcan hbody hnreg2
            · have hfr := loopBody_frame st sid sid2 (fun he => hs he.symm)
              have hj3 : getJob sid (hStep st (HCmd.loopBody sid2)).jobs =
                  some job := by
                rw [hfr.2]
                exact hjob
              obtain ⟨ext, hext, hk, hcount, hfd, hstarted⟩ :=
                ih (hStep st (HCmd.loopBody sid2)) sid job hj3 hcan hbody hnreg2
              rcases hfr.1 with hl | hl
              · refine ⟨ext, ?_, hk, hcount, hfd, hstarted⟩
                rw [hrun, hext, hl]
              · refine ⟨HServEvent.kodiCall sid2 :: ext, ?_, ?_, ?_, ?_, ?_⟩
                · rw [hrun, hext, hl]
                  simp
                · intro hmem
                  rcases List.mem_cons.mp hmem with hm | hm
                  · simp at hm
                    exact hs hm.symm
                  · exact hk hm
                · rw [List.countP_cons_of_neg _ _ (by simp)]
                  exact hcount
                · intro hmem
                  rcases List.mem_cons.mp hmem with hm | hm
                  · simp at hm
                  · exact hfd hm
                · intro hmem
                  rcases List.mem_cons.mp hmem with hm | hm
                  · simp at hm
                  · exact hstarted hm
        | finishCheck sid2 =>
            by_cases hs : sid2 = sid
            · subst hs
              by_cases hfin : job.finished = true
              · have hss := finishCheck_finished st sid2 job hjob hfin
                rw [hrun, hss]
                exact ih st sid2 job hjob hcan hbody hnreg2
              · have hfin2 : job.finished = false := by
                  cases h : job.finished
                  · rfl
                  · exact absurd h hfin
                have hss := finishCheck_cancelled st sid2 job hjob hcan hbody hfin2
                have hj3 : getJob sid2 (hStep st (HCmd.finishCheck sid2)).jobs =
                    some { job with finished := true } := by
                  rw [hss]
                  exact getJob_setJob_self sid2 _ _
                obtain ⟨ext, hext, hk, hcount, hfd, hstarted⟩ :=
                  ih (hStep st (HCmd.finishCheck sid2)) sid2
                    { job with finished := true } hj3 hcan hbody hnreg2
                have h2 : ext.countP
                    (fun e => e = HServEvent.finalCancelled sid2) = 0 := by
                  simpa using hcount
                refine ⟨(if job.subscribed then [HServEvent.finalCancelled sid2]
                    else []) ++ ext, ?_, ?_, ?_, ?_, ?_⟩
                · rw [hrun, hext, hss]
                  simp [List.append_assoc]
                · intro hmem
                  rcases List.mem_append.mp hmem with hm | hm
                  · by_cases hsubb : job.subscribed = true <;> simp [hsubb] at hm
                  · exact hk hm
                · rw [List.countP_append, h2, hfin2]
                  by_cases hsubb : job.subscribed = true <;> simp [hsubb]
                · intro hmem
                  rcases List.mem_append.mp hmem with hm | hm
                  · by_cases hsubb : job.subscribed = true <;> simp [hsubb] at hm
                  · exact hfd hm
                · intro hmem
                  rcases List.mem_append.mp hmem with hm | hm
                  · by_cases hsubb : job.subscribed = true <;> simp [hsubb] at hm
                  · exact hstarted hm
            · have hfr := finishCheck_frame st sid sid2 (fun he => hs he.symm)
              obtain ⟨⟨extc, hlc, hallc⟩, hgj⟩ := hfr
              have hj3 : getJob sid (hStep st (HCmd.finishCheck sid2)).jobs =
                  some job := by
                rw [hgj]
                exact hjob
              obtain ⟨ext, hext, hk, hcount, hfd, hstarted⟩ :=
                ih (hStep st (HCmd.finishCheck sid2)) sid job hj3 hcan hbody hnreg2
              refine ⟨extc ++ ext, ?_, ?_, ?_, ?_, ?_⟩
              · rw [hrun, hext, hlc, List.append_assoc]
              · intro hmem
                rcases List.mem_append.mp hmem with hm | hm
                · rcases hallc _ hm with he | he <;> simp at he
                · exact hk hm
              · rw [List.countP_append]
                have h1 : extc.countP
                    (fun e => e = HServEvent.finalCancelled sid) = 0 := by
                  rw [List.countP_eq_zero]
                  intro e he
                  rcases hallc e he with he2 | he2 <;> subst he2 <;> simp [hs]
                rw [h1]
                simpa using hcount
              · intro hmem
                rcases List.mem_append.mp hmem with hm | hm
                · rcases hallc _ hm with he | he
                  · simp at he
                  · simp at he
                    exact hs he.symm
                · exact hfd hm
              · intro hmem
                rcases List.mem_append.mp hmem with hm | hm
                · rcases hallc _ hm with he | he <;> simp at he
                · exact hstarted hm

/-- Witness for the amended C2: registering job 1 while job 0 is current
marks job 0 cancelled; a cancelled, out-of-body job 0 finishing under one
further command emits at most its single `FINAL CANCELLED` and nothing
else. -/
theorem C2_amended_witness :
    getJob 0 (hStep ⟨some 0, [(0, ⟨false, false, false, true⟩)], []⟩
        (HCmd.register 1 true)).jobs = some ⟨true, false, false, true⟩ ∧
    (∃ ext, (hRun ⟨some 1, [(0, ⟨true, false, false, true⟩)], []⟩
        [HCmd.finishCheck 0]).log = ([] : List HServEvent) ++ ext ∧
      HServEvent.kodiCall 0 ∉ ext ∧
      ext.countP (fun e => e = HServEvent.finalCancelled 0) ≤
        (if (⟨true, false, false, true⟩ : HJob).finished then 0 else 1) ∧
      HServEvent.finalDone 0 ∉ ext ∧
      HServEvent.started 0 ∉ ext) :=
  ⟨C2_amended.1 ⟨some 0, [(0, ⟨false, false, false, true⟩)], []⟩ 1 0 true
      ⟨false, false, false, true⟩ rfl rfl (by decide),
    C2_amended.2 [HCmd.finishCheck 0]
      ⟨some 1, [(0, ⟨true, false, false, true⟩)], []⟩ 0
      ⟨true, false, false, true⟩ rfl rfl rfl
      (fun sub => by cases sub <;> decide)⟩

end LampaKodi
